import Mathlib

/-
Formal model of the ChordController input-event resolution engine.

This development is a shallow embedding of the Python sources:
  - chordcontroller/config.py          (data model, Mode validation, Config.merge_modes)
  - chordcontroller/event_listener.py  (publish/subscribe registry)
  - chordcontroller/controller_input_handler.py
                                       (mode switching, action execution, motion model)

Modelling conventions:
  - Python dicts become association lists in insertion order; dict key lookup is
    first-match lookup (keys of a Python dict are unique, so first match is the match).
  - Python floats become real numbers; Python `int()` becomes truncation toward zero.
  - Side effects issued to the keyboard/mouse/overlay/listener collaborators become
    an explicit trace of `Effect` values, in emission order.
  - A Python function that can raise becomes a function returning `Except String`
    or carrying an explicit success flag; effects emitted before the raise are kept.
  - `print` logging is not modelled (it carries no data the properties mention).
-/

namespace ChordController

/-- ControllerButtonName from config.py: a closed Literal of the 18 physical buttons. -/
inductive ControllerButtonName
  | dpad_up | dpad_down | dpad_left | dpad_right
  | face_up | face_down | face_left | face_right
  | shoulder_l | shoulder_r | trigger_l | trigger_r
  | stick_left | stick_right
  | minus | plus | home | capture
  deriving DecidableEq, Fintype, Repr

/-- Rank of each button's Python string name in alphabetical (Python `sorted`) order.
`sorted(["trigger_r", "capture"]) = ["capture", "trigger_r"]` etc. -/
def buttonRank : ControllerButtonName → Nat
  | .capture => 0
  | .dpad_down => 1
  | .dpad_left => 2
  | .dpad_right => 3
  | .dpad_up => 4
  | .face_down => 5
  | .face_left => 6
  | .face_right => 7
  | .face_up => 8
  | .home => 9
  | .minus => 10
  | .plus => 11
  | .shoulder_l => 12
  | .shoulder_r => 13
  | .stick_left => 14
  | .stick_right => 15
  | .trigger_l => 16
  | .trigger_r => 17

instance : IsAntisymm ControllerButtonName (fun a b => buttonRank a ≤ buttonRank b) :=
  ⟨by decide⟩

instance : IsTotal ControllerButtonName (fun a b => buttonRank a ≤ buttonRank b) :=
  ⟨fun a b => Nat.le_total (buttonRank a) (buttonRank b)⟩

instance : IsTrans ControllerButtonName (fun a b => buttonRank a ≤ buttonRank b) :=
  ⟨fun _ _ _ h1 h2 => Nat.le_trans h1 h2⟩

/-- Python `sorted(buttons)`: the button list sorted by its string name
(`tuple(...)` of the sorted list is the dedup key used by config.py). -/
def sortedButtons (l : List ControllerButtonName) : List ControllerButtonName :=
  l.insertionSort (fun a b => buttonRank a ≤ buttonRank b)

/-- ControllerButtonEventName from config.py. -/
inductive ControllerButtonEventName
  | down | up | click | long_press | double_click | triple_click
  deriving DecidableEq, Fintype, Repr

/-- ControllerStickName from config.py. -/
inductive ControllerStickName
  | stick_left | stick_right
  deriving DecidableEq, Fintype, Repr

/-- ControllerStickEventName from config.py (only "move"). -/
inductive ControllerStickEventName
  | move
  deriving DecidableEq, Fintype, Repr

/-- MouseButtonName from config.py. -/
inductive MouseButtonName
  | left | middle | right
  deriving DecidableEq, Fintype, Repr

/-- KeyboardKey from config.py is a closed string Literal; keys are only compared
for equality, so we model them as strings. -/
abbrev KeyboardKey := String

/-- The tagged action variants of config.py (ComputerAction, ComputerNavigationAction
and MiscellaneousAction), discriminated in the source by their `action` tag string.
`type_text` is the source's "type" action (the word `type` is reserved in Lean). -/
inductive Action
  | switch_mode (mode : String)
  | key_down (key : KeyboardKey)
  | key_up (key : KeyboardKey)
  | key_press (key : KeyboardKey)
  | mouse_down (button : MouseButtonName)
  | mouse_up (button : MouseButtonName)
  | type_text (text : String)
  | open_cheat_sheet (preferred_screen_index : Option Int)
  | close_cheat_sheet
  | toggle_cheat_sheet (preferred_screen_index : Option Int)
  | mouse_move
  | scroll
  deriving DecidableEq, Repr

/-- ButtonAction from config.py: mapping from button event name to the bound actions.
The source accepts a single action where a list is expected and every consumer
normalises with `if not isinstance(actions, list): actions = [actions]`; the model
keeps the normalised list form. -/
abbrev ButtonActionMap := List (ControllerButtonEventName × List Action)

/-- StickAction from config.py, in the same normalised form. -/
abbrev StickActionMap := List (ControllerStickEventName × List Action)

/-- MultiControllerButtonAction from config.py: a chord (list of buttons as written
in the configuration) with its event-to-actions map. -/
structure MultiControllerButtonAction where
  buttons : List ControllerButtonName
  actions : ButtonActionMap
  deriving DecidableEq, Repr

/-- Mode from config.py: the three action tables are optional exactly as in the
pydantic model (absent table = `None`). -/
structure Mode where
  name : String
  button_actions : Option (List (ControllerButtonName × ButtonActionMap)) := none
  stick_actions : Option (List (ControllerStickName × StickActionMap)) := none
  multi_button_actions : Option (List MultiControllerButtonAction) := none
  deriving DecidableEq, Repr

/-- Dedup key used by Mode.model_validate and Config.merge_modes:
Python `tuple(sorted(mba.buttons))`. -/
def chordKey (mba : MultiControllerButtonAction) : List ControllerButtonName :=
  sortedButtons mba.buttons

/-- Loop body of Mode.model_validate: walk the entries keeping the set of keys
seen so far, returning the first entry whose key was already seen. -/
def findDuplicateChord :
    List MultiControllerButtonAction → List (List ControllerButtonName) →
      Option MultiControllerButtonAction
  | [], _ => none
  | mba :: rest, seen =>
    if chordKey mba ∈ seen then some mba
    else findDuplicateChord rest (chordKey mba :: seen)

/-- Mode.model_validate from config.py: raises ValueError when two
multi_button_actions entries share the key `tuple(sorted(buttons))`.
The outer `if self.multi_button_actions:` treats both `None` and `[]` as falsy. -/
def Mode.model_validate (m : Mode) : Except String Mode :=
  match m.multi_button_actions with
  | none => .ok m
  | some mbas =>
    if mbas.isEmpty then .ok m
    else
      match findDuplicateChord mbas [] with
      | some _ => .error "Duplicate multi_button_actions"
      | none => .ok m

/-- Mode construction: `Mode.__init__` stores the fields and then runs
model_validate, so a duplicate chord key raises at construction time. -/
def Mode.make (name : String)
    (button_actions : Option (List (ControllerButtonName × ButtonActionMap)))
    (stick_actions : Option (List (ControllerStickName × StickActionMap)))
    (multi_button_actions : Option (List MultiControllerButtonAction)) :
    Except String Mode :=
  Mode.model_validate ⟨name, button_actions, stick_actions, multi_button_actions⟩

/-- Python `dict(x) if x else {}` / `list(x) if x else []`: a copy of the container,
with both `None` and the empty container giving the empty one. -/
def containerOrEmpty : Option (List α) → List α
  | none => []
  | some l => l

/-- Python `k in d` for a dict modelled as an association list. -/
def hasKey [DecidableEq κ] (d : List (κ × β)) (k : κ) : Bool :=
  d.any (fun kv => kv.1 = k)

/-- Dict lookup (first match; a Python dict has unique keys). -/
def assocGet [DecidableEq κ] (d : List (κ × β)) (k : κ) : Option β :=
  match d with
  | [] => none
  | kv :: rest => if kv.1 = k then some kv.2 else assocGet rest k

/-- The merge loops of Config.merge_modes over button_actions / stick_actions:
for each entry of the second dict, insert it only when its key is not already
present (`if controller_button_name not in button_actions`). -/
def mergeAssoc [DecidableEq κ] (d1 d2 : List (κ × β)) : List (κ × β) :=
  d2.foldl (fun acc kv => if hasKey acc kv.1 then acc else acc ++ [kv]) d1

/-- The multi_button_actions merge loop of Config.merge_modes: the key set starts
from mode1's entries, and each mode2 entry whose key is fresh is appended and its
key added to the set. -/
def mergeMulti (m1 m2 : List MultiControllerButtonAction) :
    List MultiControllerButtonAction :=
  (m2.foldl
    (fun (st : List MultiControllerButtonAction × List (List ControllerButtonName)) mba =>
      if chordKey mba ∈ st.2 then st
      else (st.1 ++ [mba], chordKey mba :: st.2))
    (m1, m1.map chordKey)).1

/-- Config.merge_modes from config.py: merge mode2 into mode1, mode1 winning on
every key; the result is built by the Mode constructor, so it is re-validated
(and the three tables of the result are always present, possibly empty). -/
def Config.merge_modes (mode1 mode2 : Mode) : Except String Mode :=
  let button_actions :=
    mergeAssoc (containerOrEmpty mode1.button_actions)
      (containerOrEmpty mode2.button_actions)
  let stick_actions :=
    mergeAssoc (containerOrEmpty mode1.stick_actions)
      (containerOrEmpty mode2.stick_actions)
  let multi_button_actions :=
    mergeMulti (containerOrEmpty mode1.multi_button_actions)
      (containerOrEmpty mode2.multi_button_actions)
  Mode.make mode1.name (some button_actions) (some stick_actions)
    (some multi_button_actions)

end ChordController

namespace ChordController

/-! Helper lemmas about dict merging. -/

theorem assocGet_append_left [DecidableEq κ] {d1 : List (κ × β)} {k : κ} {v : β}
    (ex : List (κ × β)) (h : assocGet d1 k = some v) :
    assocGet (d1 ++ ex) k = some v := by
  induction d1 with
  | nil => simp [assocGet] at h
  | cons kv rest ih =>
    by_cases hk : kv.1 = k
    · simpa [assocGet, hk] using h
    · simp only [assocGet, hk, if_false, List.cons_append] at h ⊢
      exact ih h

theorem hasKey_false_assocGet [DecidableEq κ] {d : List (κ × β)} {k : κ}
    (h : hasKey d k = false) : assocGet d k = none := by
  induction d with
  | nil => rfl
  | cons kv rest ih =>
    simp only [hasKey, List.any_cons, Bool.or_eq_false_iff, decide_eq_false_iff_not] at h
    simp only [assocGet, h.1, if_false]
    exact ih (by simp [hasKey, h.2])

theorem assocGet_append_right [DecidableEq κ] {d1 : List (κ × β)} {k : κ}
    (d2 : List (κ × β)) (h : hasKey d1 k = false) :
    assocGet (d1 ++ d2) k = assocGet d2 k := by
  induction d1 with
  | nil => rfl
  | cons kv rest ih =>
    simp only [hasKey, List.any_cons, Bool.or_eq_false_iff, decide_eq_false_iff_not] at h
    simp only [List.cons_append, assocGet, h.1, if_false]
    exact ih (by simp [hasKey, h.2])

theorem hasKey_append [DecidableEq κ] (d1 d2 : List (κ × β)) (k : κ) :
    hasKey (d1 ++ d2) k = (hasKey d1 k || hasKey d2 k) := by
  simp [hasKey, List.any_append]

theorem mergeAssoc_eq_append [DecidableEq κ] (d2 d1 : List (κ × β)) :
    ∃ ex, mergeAssoc d1 d2 = d1 ++ ex := by
  induction d2 generalizing d1 with
  | nil => exact ⟨[], by simp [mergeAssoc]⟩
  | cons kv rest ih =>
    simp only [mergeAssoc, List.foldl_cons]
    by_cases hk : hasKey d1 kv.1
    · simpa [hk] using ih d1
    · obtain ⟨ex, hex⟩ := ih (d1 ++ [kv])
      exact ⟨[kv] ++ ex, by simpa [hk, mergeAssoc] using hex⟩

/-- Keys already bound in the first dict keep their first-dict value after merging. -/
theorem mergeAssoc_left [DecidableEq κ] {d1 : List (κ × β)} {k : κ} {v : β}
    (d2 : List (κ × β)) (h : assocGet d1 k = some v) :
    assocGet (mergeAssoc d1 d2) k = some v := by
  obtain ⟨ex, hex⟩ := mergeAssoc_eq_append d2 d1
  rw [hex]
  exact assocGet_append_left ex h

/-- Keys absent from the first dict resolve to their second-dict value after merging. -/
theorem mergeAssoc_right [DecidableEq κ] {k : κ}
    (d2 : List (κ × β)) : ∀ d1, hasKey d1 k = false →
    assocGet (mergeAssoc d1 d2) k = assocGet d2 k := by
  induction d2 with
  | nil =>
    intro d1 h
    simpa [mergeAssoc, assocGet] using hasKey_false_assocGet h
  | cons kv rest ih =>
    intro d1 h
    by_cases hk : kv.1 = k
    · subst hk
      simp only [mergeAssoc, List.foldl_cons, h, if_false, assocGet, if_pos rfl]
      have h1 : assocGet (d1 ++ [kv]) kv.1 = some kv.2 := by
        rw [assocGet_append_right [kv] h]
        simp [assocGet]
      obtain ⟨ex, hex⟩ := mergeAssoc_eq_append rest (d1 ++ [kv])
      calc assocGet (mergeAssoc (d1 ++ [kv]) rest) kv.1
          = assocGet (d1 ++ [kv] ++ ex) kv.1 := by rw [hex]
        _ = some kv.2 := assocGet_append_left ex h1
    · have hne : (kv.1 = k) = False := by simp [hk]
      simp only [mergeAssoc, List.foldl_cons, assocGet, hne, if_false]
      by_cases hd : hasKey d1 kv.1
      · simp only [hd, if_true]
        exact ih d1 h
      · simp only [hd, if_false]
        refine ih (d1 ++ [kv]) ?_
        rw [hasKey_append, h]
        simp [hasKey, hk]

/-! Helper lemmas about the multi_button_actions merge. -/

/-- The entries of the second mode that the merge loop appends: those whose chord
key is fresh with respect to the seen-set threaded through the loop. -/
def freshMulti :
    List MultiControllerButtonAction → List (List ControllerButtonName) →
      List MultiControllerButtonAction
  | [], _ => []
  | mba :: rest, seen =>
    if chordKey mba ∈ seen then freshMulti rest seen
    else mba :: freshMulti rest (chordKey mba :: seen)

theorem mergeMulti_foldl_spec (l : List MultiControllerButtonAction) :
    ∀ acc seen,
      (l.foldl
        (fun (st : List MultiControllerButtonAction × List (List ControllerButtonName)) mba =>
          if chordKey mba ∈ st.2 then st
          else (st.1 ++ [mba], chordKey mba :: st.2))
        (acc, seen)).1 = acc ++ freshMulti l seen := by
  induction l with
  | nil => intro acc seen; simp [freshMulti]
  | cons mba rest ih =>
    intro acc seen
    by_cases hm : chordKey mba ∈ seen
    · simp [freshMulti, hm, ih]
    · simp [freshMulti, hm, ih]

theorem mergeMulti_eq_append (m1 m2 : List MultiControllerButtonAction) :
    mergeMulti m1 m2 = m1 ++ freshMulti m2 (m1.map chordKey) := by
  simpa [mergeMulti] using mergeMulti_foldl_spec m2 m1 (m1.map chordKey)

theorem freshMulti_spec (l : List MultiControllerButtonAction) :
    ∀ seen, (∀ e ∈ freshMulti l seen, e ∈ l ∧ chordKey e ∉ seen) ∧
      ((freshMulti l seen).map chordKey).Nodup := by
  induction l with
  | nil => intro seen; simp [freshMulti]
  | cons mba rest ih =>
    intro seen
    by_cases hm : chordKey mba ∈ seen
    · rw [show freshMulti (mba :: rest) seen = freshMulti rest seen from by
        simp [freshMulti, hm]]
      refine ⟨fun e he => ?_, (ih seen).2⟩
      have := (ih seen).1 e he
      exact ⟨List.mem_cons_of_mem _ this.1, this.2⟩
    · constructor
      · intro e he
        simp only [freshMulti, hm, if_false, List.mem_cons] at he
        rcases he with rfl | he
        · exact ⟨List.mem_cons_self _ _, hm⟩
        · have := (ih (chordKey mba :: seen)).1 e he
          exact ⟨List.mem_cons_of_mem _ this.1,
            fun hc => this.2 (List.mem_cons_of_mem _ hc)⟩
      · simp only [freshMulti, hm, if_false, List.map_cons, List.nodup_cons]
        refine ⟨?_, (ih (chordKey mba :: seen)).2⟩
        intro hc
        obtain ⟨e, he, hke⟩ := List.mem_map.mp hc
        exact (ih (chordKey mba :: seen)).1 e he |>.2 (hke ▸ List.mem_cons_self _ _)

theorem findDuplicateChord_none_iff (l : List MultiControllerButtonAction) :
    ∀ seen, findDuplicateChord l seen = none ↔
      ((l.map chordKey).Nodup ∧ ∀ k ∈ l.map chordKey, k ∉ seen) := by
  induction l with
  | nil => intro seen; simp [findDuplicateChord]
  | cons mba rest ih =>
    intro seen
    by_cases hm : chordKey mba ∈ seen
    · simp only [findDuplicateChord, hm, if_pos, if_true]
      constructor
      · intro h; cases h
      · rintro ⟨-, hall⟩
        exact absurd hm (hall (chordKey mba) (by simp))
    · rw [show findDuplicateChord (mba :: rest) seen =
          findDuplicateChord rest (chordKey mba :: seen) from by
          simp [findDuplicateChord, hm]]
      rw [ih (chordKey mba :: seen)]
      constructor
      · rintro ⟨hnd, hall⟩
        refine ⟨?_, ?_⟩
        · rw [List.map_cons, List.nodup_cons]
          refine ⟨fun hc => ?_, hnd⟩
          exact (hall (chordKey mba) hc) (List.mem_cons_self _ _)
        · intro k hk
          rw [List.map_cons, List.mem_cons] at hk
          rcases hk with rfl | hk
          · exact hm
          · exact fun hs => (hall k hk) (List.mem_cons_of_mem _ hs)
      · rintro ⟨hnd, hall⟩
        rw [List.map_cons, List.nodup_cons] at hnd
        refine ⟨hnd.2, ?_⟩
        intro k hk hs
        rcases List.mem_cons.mp hs with rfl | hs2
        · exact hnd.1 hk
        · exact (hall k (by rw [List.map_cons, List.mem_cons]; exact Or.inr hk)) hs2

theorem sortedButtons_perm {l1 l2 : List ControllerButtonName} (h : l1.Perm l2) :
    sortedButtons l1 = sortedButtons l2 := by
  apply List.eq_of_perm_of_sorted (r := fun a b => buttonRank a ≤ buttonRank b)
  · exact ((l1.perm_insertionSort _).trans h).trans (l2.perm_insertionSort _).symm
  · exact List.sorted_insertionSort _ l1
  · exact List.sorted_insertionSort _ l2

/-- Mode construction succeeds exactly when the chord keys are pairwise distinct. -/
theorem Mode.make_ok_iff (name : String) (ba : Option (List (ControllerButtonName × ButtonActionMap)))
    (sa : Option (List (ControllerStickName × StickActionMap)))
    (mbas : List MultiControllerButtonAction) :
    Mode.make name ba sa (some mbas) = .ok ⟨name, ba, sa, some mbas⟩ ↔
      (mbas.map chordKey).Nodup := by
  constructor
  · intro h
    rcases hfd : findDuplicateChord mbas [] with _ | d
    · exact ((findDuplicateChord_none_iff mbas []).mp hfd).1
    · exfalso
      rcases mbas with _ | ⟨x, xs⟩
      · simp [findDuplicateChord] at hfd
      · simp only [Mode.make, Mode.model_validate, List.isEmpty_cons, if_false,
          Bool.false_eq_true, hfd] at h
        exact Except.noConfusion h
  · intro hnd
    have hfd : findDuplicateChord mbas [] = none :=
      (findDuplicateChord_none_iff mbas []).mpr ⟨hnd, by simp⟩
    rcases mbas with _ | ⟨x, xs⟩
    · simp [Mode.make, Mode.model_validate]
    · simp only [Mode.make, Mode.model_validate, List.isEmpty_cons, if_false,
        Bool.false_eq_true, hfd]

end ChordController

namespace ChordController

/-! Claim C5: merge_modes precedence. -/

/-- C5 counterexample: the claim says the merged multi-button bindings contain no
two entries with the same chord, chords compared as button SETS, with the first
mode's entry winning. But the dedup key is the sorted button list, which does not
collapse repeated entries inside one list: merging a mode binding the chord via
`["face_up"]` with one binding it via `["face_up", "face_up"]` keeps BOTH entries,
although the two lists denote the same button set. -/
theorem merge_modes_same_chord_set_duplicated :
    Config.merge_modes
        ⟨"A", none, none, some [⟨[.face_up], []⟩]⟩
        ⟨"B", none, none, some [⟨[.face_up, .face_up], []⟩]⟩ =
      .ok ⟨"A", some [], some [],
        some [⟨[.face_up], []⟩, ⟨[.face_up, .face_up], []⟩]⟩ ∧
    ([ControllerButtonName.face_up] : List _).toFinset =
      ([.face_up, .face_up] : List _).toFinset := by
  constructor
  · rfl
  · decide

/-- C5 (amended): for any key present in both modes the merged button/stick table
uses mode1's value, keys only in mode2 keep mode2's value, and among the merged
multi-button entries no two share the same SORTED BUTTON LIST (rather than the
same button set): mode1's entries are all kept, and a mode2 entry is appended
exactly when its sorted button list is fresh. -/
theorem merge_modes_precedence (mode1 mode2 : Mode)
    (hnd : ((containerOrEmpty mode1.multi_button_actions).map chordKey).Nodup) :
    Config.merge_modes mode1 mode2 =
      .ok ⟨mode1.name,
        some (mergeAssoc (containerOrEmpty mode1.button_actions)
          (containerOrEmpty mode2.button_actions)),
        some (mergeAssoc (containerOrEmpty mode1.stick_actions)
          (containerOrEmpty mode2.stick_actions)),
        some (mergeMulti (containerOrEmpty mode1.multi_button_actions)
          (containerOrEmpty mode2.multi_button_actions))⟩ ∧
    (∀ k v, assocGet (containerOrEmpty mode1.button_actions) k = some v →
      assocGet (mergeAssoc (containerOrEmpty mode1.button_actions)
        (containerOrEmpty mode2.button_actions)) k = some v) ∧
    (∀ k, hasKey (containerOrEmpty mode1.button_actions) k = false →
      assocGet (mergeAssoc (containerOrEmpty mode1.button_actions)
        (containerOrEmpty mode2.button_actions)) k =
      assocGet (containerOrEmpty mode2.button_actions) k) ∧
    (∀ k v, assocGet (containerOrEmpty mode1.stick_actions) k = some v →
      assocGet (mergeAssoc (containerOrEmpty mode1.stick_actions)
        (containerOrEmpty mode2.stick_actions)) k = some v) ∧
    (∀ k, hasKey (containerOrEmpty mode1.stick_actions) k = false →
      assocGet (mergeAssoc (containerOrEmpty mode1.stick_actions)
        (containerOrEmpty mode2.stick_actions)) k =
      assocGet (containerOrEmpty mode2.stick_actions) k) ∧
    (mergeMulti (containerOrEmpty mode1.multi_button_actions)
        (containerOrEmpty mode2.multi_button_actions) =
      containerOrEmpty mode1.multi_button_actions ++
        freshMulti (containerOrEmpty mode2.multi_button_actions)
          ((containerOrEmpty mode1.multi_button_actions).map chordKey)) ∧
    ((mergeMulti (containerOrEmpty mode1.multi_button_actions)
        (containerOrEmpty mode2.multi_button_actions)).map chordKey).Nodup ∧
    (∀ e ∈ freshMulti (containerOrEmpty mode2.multi_button_actions)
        ((containerOrEmpty mode1.multi_button_actions).map chordKey),
      e ∈ containerOrEmpty mode2.multi_button_actions ∧
        chordKey e ∉ (containerOrEmpty mode1.multi_button_actions).map chordKey) := by
  set m1 := containerOrEmpty mode1.multi_button_actions with hm1
  set m2 := containerOrEmpty mode2.multi_button_actions with hm2
  have hfresh := freshMulti_spec m2 (m1.map chordKey)
  have hketa : mergeMulti m1 m2 = m1 ++ freshMulti m2 (m1.map chordKey) :=
    mergeMulti_eq_append m1 m2
  have hmergednd : ((mergeMulti m1 m2).map chordKey).Nodup := by
    rw [hketa, List.map_append, List.nodup_append]
    refine ⟨hnd, hfresh.2, ?_⟩
    intro k hk1 hk2
    obtain ⟨e, he, hke⟩ := List.mem_map.mp hk2
    exact (hfresh.1 e he).2 (hke ▸ hk1)
  refine ⟨?_, ?_, ?_, ?_, ?_, hketa, hmergednd, hfresh.1⟩
  · show Mode.make _ _ _ _ = _
    exact (Mode.make_ok_iff _ _ _ _).mpr hmergednd
  · exact fun k v h => mergeAssoc_left _ h
  · exact fun k h => mergeAssoc_right _ _ h
  · exact fun k v h => mergeAssoc_left _ h
  · exact fun k h => mergeAssoc_right _ _ h

/-- Witness for merge_modes_precedence at a concrete pair of modes. -/
theorem merge_modes_precedence_witness :
    Config.merge_modes
        ⟨"A", some [(.face_up, [(.down, [.key_press "a"])])], none,
          some [⟨[.face_up], []⟩]⟩
        ⟨"B", some [(.face_up, [(.down, [.key_press "b"])]),
          (.home, [(.down, [.key_press "h"])])], none, none⟩ =
      .ok ⟨"A",
        some [(.face_up, [(.down, [.key_press "a"])]),
          (.home, [(.down, [.key_press "h"])])],
        some [], some [⟨[.face_up], []⟩]⟩ := by
  have h := (merge_modes_precedence
    ⟨"A", some [(.face_up, [(.down, [.key_press "a"])])], none,
      some [⟨[.face_up], []⟩]⟩
    ⟨"B", some [(.face_up, [(.down, [.key_press "b"])]),
      (.home, [(.down, [.key_press "h"])])], none, none⟩ (by decide)).1
  rw [h]
  rfl

/-! Claim C9: duplicate chord validation at Mode construction. -/

/-- C9 counterexample: two multi_button_actions entries whose button lists denote
the same SET (one lists `face_up` twice) are accepted by Mode construction —
the dedup key `tuple(sorted(buttons))` keeps duplicates inside one list, so no
configuration error is raised. -/
theorem mode_construction_accepts_same_chord_set :
    Mode.make "m" none none
        (some [⟨[.face_up], []⟩, ⟨[.face_up, .face_up], []⟩]) =
      .ok ⟨"m", none, none,
        some [⟨[.face_up], []⟩, ⟨[.face_up, .face_up], []⟩]⟩ ∧
    ([ControllerButtonName.face_up] : List _).toFinset =
      ([.face_up, .face_up] : List _).toFinset ∧
    ([ControllerButtonName.face_up] : List _) ≠ [.face_up, .face_up] := by
  refine ⟨rfl, by decide, by decide⟩

/-- C9 (amended): Mode construction raises a configuration error exactly when two
multi_button_actions entries have the same sorted button list; in particular the
check is order-insensitive (button lists that are permutations of each other get
the same key), but it does not identify lists with their underlying sets. -/
theorem mode_construction_duplicate_sorted_list (name : String)
    (ba : Option (List (ControllerButtonName × ButtonActionMap)))
    (sa : Option (List (ControllerStickName × StickActionMap)))
    (mbas : List MultiControllerButtonAction)
    (l1 l2 : List ControllerButtonName) (hperm : l1.Perm l2) :
    (Mode.make name ba sa (some mbas) = .ok ⟨name, ba, sa, some mbas⟩ ↔
      (mbas.map chordKey).Nodup) ∧
    sortedButtons l1 = sortedButtons l2 :=
  ⟨Mode.make_ok_iff name ba sa mbas, sortedButtons_perm hperm⟩

/-- Witness for mode_construction_duplicate_sorted_list: permuted chords clash. -/
theorem mode_construction_duplicate_sorted_list_witness :
    (Mode.make "m" none none
        (some [⟨[.face_up, .capture], []⟩, ⟨[.capture, .face_up], []⟩]) =
      .ok ⟨"m", none, none,
        some [⟨[.face_up, .capture], []⟩, ⟨[.capture, .face_up], []⟩]⟩ ↔
      (([⟨[.face_up, .capture], []⟩,
        (⟨[.capture, .face_up], []⟩ : MultiControllerButtonAction)]).map
          chordKey).Nodup) ∧
    sortedButtons [.face_up, .capture] = sortedButtons [.capture, .face_up] :=
  mode_construction_duplicate_sorted_list "m" none none
    [⟨[.face_up, .capture], []⟩, ⟨[.capture, .face_up], []⟩]
    [.face_up, .capture] [.capture, .face_up] (by decide)

end ChordController


namespace ChordController

/-! Claim C10: merge_modes leaves its inputs untouched.

To make the frame property meaningful, Config.merge_modes is re-translated
against an explicit object heap: the three action containers of a Mode live in
heap cells and a Mode object holds references. The statements of merge_modes
only read through the input references (`dict(.)` / `list(.)` copy into fresh
locals) and the Mode constructor stores the locals into freshly allocated
cells, so no existing cell is ever written. -/

/-- A heap cell holding one of the three kinds of action containers. -/
inductive ContainerVal
  | bdict (d : List (ControllerButtonName × ButtonActionMap))
  | sdict (d : List (ControllerStickName × StickActionMap))
  | mlist (l : List MultiControllerButtonAction)
  deriving DecidableEq, Repr

/-- A Mode object whose optional containers are references into the heap. -/
structure ModeRef where
  name : String
  button_actions : Option Nat := none
  stick_actions : Option Nat := none
  multi_button_actions : Option Nat := none
  deriving DecidableEq, Repr

def derefButtons (h : List ContainerVal) :
    Option Nat → Option (List (ControllerButtonName × ButtonActionMap))
  | none => none
  | some i =>
    match h[i]? with
    | some (.bdict d) => some d
    | _ => none

def derefSticks (h : List ContainerVal) :
    Option Nat → Option (List (ControllerStickName × StickActionMap))
  | none => none
  | some i =>
    match h[i]? with
    | some (.sdict d) => some d
    | _ => none

def derefMulti (h : List ContainerVal) :
    Option Nat → Option (List MultiControllerButtonAction)
  | none => none
  | some i =>
    match h[i]? with
    | some (.mlist l) => some l
    | _ => none

/-- The value-level view of a Mode object under a heap. -/
def ModeRef.toMode (r : ModeRef) (h : List ContainerVal) : Mode :=
  ⟨r.name, derefButtons h r.button_actions, derefSticks h r.stick_actions,
    derefMulti h r.multi_button_actions⟩

/-- A reference is valid when it points inside the heap. -/
def refValid (h : List ContainerVal) : Option Nat → Prop
  | none => True
  | some i => i < h.length

def ModeRef.validIn (r : ModeRef) (h : List ContainerVal) : Prop :=
  refValid h r.button_actions ∧ refValid h r.stick_actions ∧
    refValid h r.multi_button_actions

/-- Config.merge_modes re-translated against the heap: copies of the inputs are
taken into locals, merged, and the Mode constructor allocates three fresh cells
for the result (and validates, propagating the ValueError on duplicate chords). -/
def Config.merge_modes_heap (h : List ContainerVal) (m1 m2 : ModeRef) :
    List ContainerVal × Except String ModeRef :=
  let bd := mergeAssoc (containerOrEmpty (derefButtons h m1.button_actions))
    (containerOrEmpty (derefButtons h m2.button_actions))
  let sd := mergeAssoc (containerOrEmpty (derefSticks h m1.stick_actions))
    (containerOrEmpty (derefSticks h m2.stick_actions))
  let ml := mergeMulti (containerOrEmpty (derefMulti h m1.multi_button_actions))
    (containerOrEmpty (derefMulti h m2.multi_button_actions))
  let h2 := h ++ [.bdict bd, .sdict sd, .mlist ml]
  match Mode.make m1.name (some bd) (some sd) (some ml) with
  | .error e => (h2, .error e)
  | .ok _ => (h2, .ok ⟨m1.name, some h.length, some (h.length + 1),
      some (h.length + 2)⟩)

theorem deref_extend_buttons (h cells : List ContainerVal) (o : Option Nat)
    (hv : refValid h o) : derefButtons (h ++ cells) o = derefButtons h o := by
  cases o with
  | none => rfl
  | some i =>
    have hi : i < h.length := hv
    simp [derefButtons, List.getElem?_append, hi]

theorem deref_extend_sticks (h cells : List ContainerVal) (o : Option Nat)
    (hv : refValid h o) : derefSticks (h ++ cells) o = derefSticks h o := by
  cases o with
  | none => rfl
  | some i =>
    have hi : i < h.length := hv
    simp [derefSticks, List.getElem?_append, hi]

theorem deref_extend_multi (h cells : List ContainerVal) (o : Option Nat)
    (hv : refValid h o) : derefMulti (h ++ cells) o = derefMulti h o := by
  cases o with
  | none => rfl
  | some i =>
    have hi : i < h.length := hv
    simp [derefMulti, List.getElem?_append, hi]

theorem Mode.model_validate_ok_eq {m m' : Mode}
    (h : Mode.model_validate m = .ok m') : m' = m := by
  obtain ⟨mn, mb, ms, mm⟩ := m
  rcases mm with _ | mbas
  · simp only [Mode.model_validate] at h
    injection h with h
    exact h.symm
  · simp only [Mode.model_validate] at h
    by_cases he : mbas.isEmpty
    · rw [if_pos he] at h
      injection h with h
      exact h.symm
    · rw [if_neg he] at h
      rcases hfd : findDuplicateChord mbas [] with _ | d
      · rw [hfd] at h
        injection h with h
        exact h.symm
      · rw [hfd] at h
        exact Except.noConfusion h

theorem Mode.make_ok_eq {n ba sa mba} {m : Mode}
    (h : Mode.make n ba sa mba = .ok m) : m = ⟨n, ba, sa, mba⟩ :=
  Mode.model_validate_ok_eq h

/-- C10: merge_modes writes no existing heap cell — every valid Mode object,
in particular both inputs, reads back unchanged after the call — and on success
the result's name is mode1's name (never mode2's) and the result's value-level
view is exactly what the pure merge of the two inputs' value-level views yields. -/
theorem merge_modes_heap_frame (h : List ContainerVal) (m1 m2 : ModeRef)
    (hv1 : m1.validIn h) (hv2 : m2.validIn h) :
    (∀ i, i < h.length → (Config.merge_modes_heap h m1 m2).1[i]? = h[i]?) ∧
    m1.toMode (Config.merge_modes_heap h m1 m2).1 = m1.toMode h ∧
    m2.toMode (Config.merge_modes_heap h m1 m2).1 = m2.toMode h ∧
    (∀ r, (Config.merge_modes_heap h m1 m2).2 = .ok r →
      r.name = m1.name ∧
      Config.merge_modes (m1.toMode h) (m2.toMode h) =
        .ok (r.toMode (Config.merge_modes_heap h m1 m2).1)) := by
  obtain ⟨hv1b, hv1s, hv1m⟩ := hv1
  obtain ⟨hv2b, hv2s, hv2m⟩ := hv2
  set bd := mergeAssoc (containerOrEmpty (derefButtons h m1.button_actions))
    (containerOrEmpty (derefButtons h m2.button_actions)) with hbd
  set sd := mergeAssoc (containerOrEmpty (derefSticks h m1.stick_actions))
    (containerOrEmpty (derefSticks h m2.stick_actions)) with hsd
  set ml := mergeMulti (containerOrEmpty (derefMulti h m1.multi_button_actions))
    (containerOrEmpty (derefMulti h m2.multi_button_actions)) with hml
  have hrun : Config.merge_modes_heap h m1 m2 =
      (h ++ [.bdict bd, .sdict sd, .mlist ml],
        match Mode.make m1.name (some bd) (some sd) (some ml) with
        | .error e => .error e
        | .ok _ => .ok ⟨m1.name, some h.length, some (h.length + 1),
            some (h.length + 2)⟩) := by
    simp only [Config.merge_modes_heap]
    rcases Mode.make m1.name (some bd) (some sd) (some ml) with e | m <;> rfl
  refine ⟨?_, ?_, ?_, ?_⟩
  · intro i hi
    rw [hrun]
    simp [List.getElem?_append, hi]
  · rw [hrun]
    unfold ModeRef.toMode
    rw [deref_extend_buttons _ _ _ hv1b, deref_extend_sticks _ _ _ hv1s,
      deref_extend_multi _ _ _ hv1m]
  · rw [hrun]
    unfold ModeRef.toMode
    rw [deref_extend_buttons _ _ _ hv2b, deref_extend_sticks _ _ _ hv2s,
      deref_extend_multi _ _ _ hv2m]
  · intro r hr
    rw [hrun] at hr
    simp only at hr
    rcases hmk : Mode.make m1.name (some bd) (some sd) (some ml) with e | m
    · rw [hmk] at hr
      exact absurd hr (by simp)
    · rw [hmk] at hr
      injection hr with hr
      subst hr
      refine ⟨rfl, ?_⟩
      have hb2 : derefButtons (h ++ [ContainerVal.bdict bd, .sdict sd, .mlist ml])
          (some h.length) = some bd := by
        simp only [derefButtons]
        rw [List.getElem?_append_right (le_refl _)]
        simp
      have hs2 : derefSticks (h ++ [ContainerVal.bdict bd, .sdict sd, .mlist ml])
          (some (h.length + 1)) = some sd := by
        simp only [derefSticks]
        rw [List.getElem?_append_right (by omega)]
        simp
      have hm2 : derefMulti (h ++ [ContainerVal.bdict bd, .sdict sd, .mlist ml])
          (some (h.length + 2)) = some ml := by
        simp only [derefMulti]
        rw [List.getElem?_append_right (by omega)]
        simp
      have htm : ModeRef.toMode
          ⟨m1.name, some h.length, some (h.length + 1), some (h.length + 2)⟩
          (Config.merge_modes_heap h m1 m2).1 =
          ⟨m1.name, some bd, some sd, some ml⟩ := by
        rw [hrun]
        unfold ModeRef.toMode
        simp only [hb2, hs2, hm2]
      rw [htm]
      calc Config.merge_modes (m1.toMode h) (m2.toMode h)
          = Mode.make m1.name (some bd) (some sd) (some ml) := rfl
        _ = .ok m := hmk
        _ = .ok ⟨m1.name, some bd, some sd, some ml⟩ := by
            rw [Mode.make_ok_eq hmk]

/-- Witness for merge_modes_heap_frame: a one-cell heap holding mode A's button
table; both modes read back unchanged and the merge result carries A's name. -/
theorem merge_modes_heap_frame_witness :
    (∀ i, i < 1 →
      (Config.merge_modes_heap [ContainerVal.bdict [(.home, [])]]
        ⟨"A", some 0, none, none⟩ ⟨"B", none, none, none⟩).1[i]? =
      [ContainerVal.bdict [(.home, [])]][i]?) ∧
    ModeRef.toMode ⟨"A", some 0, none, none⟩
      (Config.merge_modes_heap [ContainerVal.bdict [(.home, [])]]
        ⟨"A", some 0, none, none⟩ ⟨"B", none, none, none⟩).1 =
      ModeRef.toMode ⟨"A", some 0, none, none⟩ [ContainerVal.bdict [(.home, [])]] ∧
    ModeRef.toMode ⟨"B", none, none, none⟩
      (Config.merge_modes_heap [ContainerVal.bdict [(.home, [])]]
        ⟨"A", some 0, none, none⟩ ⟨"B", none, none, none⟩).1 =
      ModeRef.toMode ⟨"B", none, none, none⟩ [ContainerVal.bdict [(.home, [])]] ∧
    (∀ r, (Config.merge_modes_heap [ContainerVal.bdict [(.home, [])]]
        ⟨"A", some 0, none, none⟩ ⟨"B", none, none, none⟩).2 = .ok r →
      r.name = "A" ∧
      Config.merge_modes
        (ModeRef.toMode ⟨"A", some 0, none, none⟩ [ContainerVal.bdict [(.home, [])]])
        (ModeRef.toMode ⟨"B", none, none, none⟩ [ContainerVal.bdict [(.home, [])]]) =
        .ok (ModeRef.toMode r
          (Config.merge_modes_heap [ContainerVal.bdict [(.home, [])]]
            ⟨"A", some 0, none, none⟩ ⟨"B", none, none, none⟩).1)) :=
  merge_modes_heap_frame [ContainerVal.bdict [(.home, [])]]
    ⟨"A", some 0, none, none⟩ ⟨"B", none, none, none⟩
    ⟨Nat.one_pos, trivial, trivial⟩ ⟨trivial, trivial, trivial⟩

end ChordController

namespace ChordController

/-! Event bus (event_listener.py).

A listener callback is modelled as a function that either returns normally or
raises (`Except.error`). The registry is the dict of configs in insertion
order; uuid keys become naturals. `call_event_listeners` also reports the list
of listener ids actually invoked (in call order) and the exception outcome. -/

/-- EventListenerConfig from event_listener.py. -/
structure EventListenerConfig (τ κ : Type) where
  id : Nat
  event_trigger : Option τ
  listener : κ → Except String Unit
  tag : Option String := none
  single_shot : Bool := false

/-- Events.get_event_listeners: all configs whose trigger matches, or whose
trigger is None (wildcard), in registration order. -/
def get_event_listeners [DecidableEq τ] (regs : List (EventListenerConfig τ κ))
    (event_trigger : τ) : List (EventListenerConfig τ κ) :=
  regs.filter (fun c =>
    decide (c.event_trigger = some event_trigger) || decide (c.event_trigger = none))

/-- Events.remove_event_listener: delete the entry with the given id (ids are
dict keys, hence unique; deleting a missing id is a no-op). -/
def remove_event_listener (regs : List (EventListenerConfig τ κ)) (listener_id : Nat) :
    List (EventListenerConfig τ κ) :=
  regs.filter (fun c => decide (c.id ≠ listener_id))

/-- Loop of Events.call_event_listeners over the snapshot returned by
get_event_listeners: call each listener; after a normal return remove it if
single_shot; a raise propagates immediately (no catch in the source), leaving
the registry as it was at that point. Returns (registry, invoked ids, outcome). -/
def callListenersLoop (param : κ) :
    List (EventListenerConfig τ κ) → List (EventListenerConfig τ κ) →
      List (EventListenerConfig τ κ) × List Nat × Option String
  | [], regs => (regs, [], none)
  | c :: rest, regs =>
    match c.listener param with
    | .error e => (regs, [c.id], some e)
    | .ok _ =>
      let regs1 := if c.single_shot then remove_event_listener regs c.id else regs
      let (regs2, ids, err) := callListenersLoop param rest regs1
      (regs2, c.id :: ids, err)

/-- Events.call_event_listeners from event_listener.py. -/
def call_event_listeners [DecidableEq τ] (regs : List (EventListenerConfig τ κ))
    (event_trigger : τ) (param : κ) :
    List (EventListenerConfig τ κ) × List Nat × Option String :=
  callListenersLoop param (get_event_listeners regs event_trigger) regs

/-- A raising single-shot listener followed by a healthy one, both on trigger 0. -/
def raisingListener : EventListenerConfig Nat Unit :=
  ⟨1, some 0, fun _ => .error "boom", none, true⟩

def healthyListener : EventListenerConfig Nat Unit :=
  ⟨2, some 0, fun _ => .ok (), none, false⟩

/-- C3 counterexample: when the first listener raises during a publish, the
exception is NOT caught at the bus boundary (the publish returns the raise),
the remaining listener is never invoked (only id 1 ran), and the raising
single-shot listener is NOT removed (the registry still holds both entries). -/
theorem call_event_listeners_raise_aborts :
    call_event_listeners [raisingListener, healthyListener] 0 () =
      ([raisingListener, healthyListener], [1], some "boom") := rfl

/-- C3 (amended): if the first `pre` listeners of the publish snapshot return
normally and the next one raises, the raise propagates to the publisher as the
outcome, exactly the listeners up to and including the raising one are invoked,
and the only registry mutations are the single-shot removals of the `pre`
listeners — in particular the raising single-shot listener is not removed. -/
theorem call_event_listeners_raise_spec [DecidableEq τ]
    (regs : List (EventListenerConfig τ κ)) (event_trigger : τ) (param : κ)
    (pre rest : List (EventListenerConfig τ κ)) (c : EventListenerConfig τ κ)
    (e : String)
    (hsnap : get_event_listeners regs event_trigger = pre ++ c :: rest)
    (hpre : ∀ c' ∈ pre, c'.listener param = .ok ())
    (hc : c.listener param = .error e) :
    call_event_listeners regs event_trigger param =
      (pre.foldl (fun rs c' =>
          if c'.single_shot then remove_event_listener rs c'.id else rs) regs,
        pre.map (fun c' => c'.id) ++ [c.id], some e) := by
  unfold call_event_listeners
  rw [hsnap]
  clear hsnap
  induction pre generalizing regs with
  | nil =>
    simp only [List.nil_append, callListenersLoop, hc, List.foldl_nil, List.map_nil]
  | cons c0 pre ih =>
    have hc0 : c0.listener param = .ok () := hpre c0 (List.mem_cons_self _ _)
    simp only [List.cons_append, callListenersLoop, hc0, List.append_eq]
    rw [ih (if c0.single_shot then remove_event_listener regs c0.id else regs)
      (fun c' hm => hpre c' (List.mem_cons_of_mem _ hm))]
    simp

/-- Witness for call_event_listeners_raise_spec: a healthy single-shot listener
followed by the raising one; the healthy one is removed, the raiser stays. -/
theorem call_event_listeners_raise_spec_witness :
    call_event_listeners
        [⟨2, some 0, fun _ => .ok (), none, true⟩, raisingListener] 0 () =
      ([raisingListener], [2, 1], some "boom") := by
  have h := call_event_listeners_raise_spec
    (κ := Unit) [⟨2, some 0, fun _ => .ok (), none, true⟩, raisingListener] 0 ()
    [⟨2, some 0, fun _ => .ok (), none, true⟩] [] raisingListener "boom"
    rfl (by intro c' hm; simp at hm; rw [hm]) rfl
  rw [h]
  rfl

end ChordController

namespace ChordController

/-! Controller input handler (controller_input_handler.py): discrete side. -/

/-- One observable side effect issued by the handler to its collaborators
(keyboard/mouse injection, overlay, and the controller's listener registry). -/
inductive Effect
  | press (key : KeyboardKey)
  | release (key : KeyboardKey)
  | type_text (text : String)
  | mouse_press (button : MouseButtonName)
  | mouse_release (button : MouseButtonName)
  | remove_listeners (tag : String)
  | register_button (button : ControllerButtonName)
      (ev : ControllerButtonEventName) (a : Action)
  | register_stick (stick : ControllerStickName)
      (ev : ControllerStickEventName) (a : Action)
  | register_multi (buttons : List ControllerButtonName)
      (ev : ControllerButtonEventName)
  | set_title (title : String)
  | open_cheatsheet (preferred_screen_index : Option Int)
  | close_cheatsheet
  | toggle_cheatsheet (preferred_screen_index : Option Int)
  deriving DecidableEq, Repr

/-- CONTROLLER_INPUT_EVENT_LISTENER_TAG from controller_input_handler.py. -/
def controllerInputEventListenerTag : String := "controller_input_handler"

/-- The controller backend: which button and stick objects exist
(`controller.buttons` / `controller.sticks` dict keys). -/
structure Controller where
  buttons : List ControllerButtonName
  sticks : List ControllerStickName
  deriving DecidableEq, Repr

/-- The handler's configuration: the mode table (`config.modes`). -/
structure Config where
  modes : List (String × Mode)
  deriving DecidableEq, Repr

/-- The discrete mutable state of ControllerInputHandler: the tracked pressed
keyboard keys (a Python list, appended in press order) and the active mode. -/
structure HandlerState where
  pressed_keys : List KeyboardKey := []
  mode : Option Mode := none
  deriving DecidableEq, Repr

/-- ControllerInputHandler.add_button_action_listeners: skip (with a log) when
the backend has no such button, otherwise register one listener per action. -/
def add_button_action_listeners (controller : Controller)
    (button : ControllerButtonName) (ev : ControllerButtonEventName)
    (actions : List Action) : List Effect :=
  if button ∈ controller.buttons then
    actions.map (Effect.register_button button ev)
  else []

/-- ControllerInputHandler.add_stick_action_listeners: skip when the backend has
no such stick; register switch_mode and open_cheat_sheet actions, silently pass
over mouse_move/scroll (they are served by the per-frame update), and log-skip
anything else. -/
def add_stick_action_listeners (controller : Controller)
    (stick : ControllerStickName) (ev : ControllerStickEventName)
    (actions : List Action) : List Effect :=
  if stick ∈ controller.sticks then
    actions.filterMap (fun a =>
      match a with
      | .switch_mode _ => some (Effect.register_stick stick ev a)
      | .mouse_move => none
      | .scroll => none
      | .open_cheat_sheet _ => some (Effect.register_stick stick ev a)
      | _ => none)
  else []

/-- The button-listener registration block of toggle_mode. -/
def buttonRegs (controller : Controller) (m : Mode) : List Effect :=
  match m.button_actions with
  | none => []
  | some ba => ba.flatMap (fun bkv =>
      bkv.2.flatMap (fun ekv =>
        add_button_action_listeners controller bkv.1 ekv.1 ekv.2))

/-- The stick-listener registration block of toggle_mode. -/
def stickRegs (controller : Controller) (m : Mode) : List Effect :=
  match m.stick_actions with
  | none => []
  | some sa => sa.flatMap (fun skv =>
      skv.2.flatMap (fun ekv =>
        add_stick_action_listeners controller skv.1 ekv.1 ekv.2))

/-- The multi-button registration block of toggle_mode: one listener per
(entry, event name) pair on the controller's multi_button_events registry. -/
def multiRegs (m : Mode) : List Effect :=
  match m.multi_button_actions with
  | none => []
  | some mbas => mbas.flatMap (fun mba =>
      mba.actions.map (fun ekv => Effect.register_multi mba.buttons ekv.1))

/-- ControllerInputHandler.release_all_keyboard_buttons: release every tracked
key, then clear the tracked list. -/
def release_all_keyboard_buttons (st : HandlerState) : HandlerState × List Effect :=
  ({ st with pressed_keys := [] }, st.pressed_keys.map Effect.release)

/-- ControllerInputHandler.toggle_mode. In order: release all tracked keys,
remove this handler's listeners, look up the target mode (the lookup failure is
the source's `assert`, modelled by the `false` success flag; the subsequent
fallback branch of the source is unreachable because the assert fires first),
look up the "global" mode (a missing "global" key raises KeyError), merge
(mode construction re-validates and can raise), then notify the overlay and
register the merged mode's listeners. The effect trace also records effects
emitted before a raise. -/
def toggle_mode (config : Config) (controller : Controller) (st : HandlerState)
    (mode_name : String) : HandlerState × List Effect × Bool :=
  let (st1, rel) := release_all_keyboard_buttons st
  let base := rel ++ [Effect.remove_listeners controllerInputEventListenerTag]
  match assocGet config.modes mode_name with
  | none => (st1, base, false)
  | some config_mode =>
    match assocGet config.modes "global" with
    | none => (st1, base, false)
    | some global_mode =>
      match Config.merge_modes config_mode global_mode with
      | .error _ => (st1, base, false)
      | .ok merged =>
        ({ st1 with mode := some merged },
         base ++ [Effect.set_title mode_name] ++ buttonRegs controller merged ++
           stickRegs controller merged ++ multiRegs merged ++
           [Effect.set_title merged.name],
         true)

/-- ControllerInputHandler.execute_action: dispatch on the action tag. The
switch_mode branch runs toggle_mode; key_down/key_up maintain the tracked
pressed-keys list; unknown tags (the navigation actions have no branch here)
are logged and ignored. -/
def execute_action (config : Config) (controller : Controller)
    (st : HandlerState) (a : Action) : HandlerState × List Effect × Bool :=
  match a with
  | .switch_mode m => toggle_mode config controller st m
  | .key_down k =>
    if k ∈ st.pressed_keys then (st, [], true)
    else ({ st with pressed_keys := st.pressed_keys ++ [k] }, [.press k], true)
  | .key_up k =>
    if k ∈ st.pressed_keys then
      ({ st with pressed_keys := st.pressed_keys.erase k }, [.release k], true)
    else (st, [], true)
  | .mouse_down b => (st, [.mouse_press b], true)
  | .mouse_up b => (st, [.mouse_release b], true)
  | .type_text t => (st, [.type_text t], true)
  | .key_press k => (st, [.press k, .release k], true)
  | .open_cheat_sheet i => (st, [.open_cheatsheet i], true)
  | .close_cheat_sheet => (st, [.close_cheatsheet], true)
  | .toggle_cheat_sheet i => (st, [.toggle_cheatsheet i], true)
  | .mouse_move => (st, [], true)
  | .scroll => (st, [], true)

/-- Listener registrations are the only effects that arm new-mode bindings. -/
def isListenerRegistration : Effect → Bool
  | .register_button _ _ _ => true
  | .register_stick _ _ _ => true
  | .register_multi _ _ => true
  | _ => false

end ChordController

namespace ChordController

/-! Claims C1, C2, C8: mode switching and key action dispatch. -/

theorem releases_then (pre rest : List Effect)
    (hpre : ∀ e ∈ pre, isListenerRegistration e = false) (i : Nat)
    (hi : i < (pre ++ rest).length)
    (hreg : isListenerRegistration ((pre ++ rest).get ⟨i, hi⟩) = true) :
    pre.length ≤ i := by
  by_contra hlt
  push_neg at hlt
  have heq : (pre ++ rest).get ⟨i, hi⟩ = pre.get ⟨i, hlt⟩ := by
    simp only [List.get_eq_getElem]
    exact List.getElem_append_left hlt
  rw [heq] at hreg
  have hfalse := hpre _ (pre.get_mem i hlt)
  rw [hfalse] at hreg
  cases hreg

theorem toggle_mode_trace_shape (config : Config) (controller : Controller)
    (st : HandlerState) (mode_name : String) :
    (∃ rest, (toggle_mode config controller st mode_name).2.1 =
        st.pressed_keys.map Effect.release ++ rest) ∧
    (toggle_mode config controller st mode_name).1.pressed_keys = [] := by
  rcases h1 : assocGet config.modes mode_name with _ | config_mode
  · simp only [toggle_mode, release_all_keyboard_buttons, h1]
    exact ⟨⟨[Effect.remove_listeners controllerInputEventListenerTag], by simp⟩, by simp⟩
  · rcases h2 : assocGet config.modes "global" with _ | global_mode
    · simp only [toggle_mode, release_all_keyboard_buttons, h1, h2]
      exact ⟨⟨[Effect.remove_listeners controllerInputEventListenerTag], by simp⟩, by simp⟩
    · rcases h3 : Config.merge_modes config_mode global_mode with e | merged
      · simp only [toggle_mode, release_all_keyboard_buttons, h1, h2, h3]
        exact ⟨⟨[Effect.remove_listeners controllerInputEventListenerTag], by simp⟩, by simp⟩
      · simp only [toggle_mode, release_all_keyboard_buttons, h1, h2, h3]
        exact ⟨⟨[Effect.remove_listeners controllerInputEventListenerTag] ++
          [Effect.set_title mode_name] ++ buttonRegs controller merged ++
          stickRegs controller merged ++ multiRegs merged ++
          [Effect.set_title merged.name], by simp⟩, by simp⟩

/-- C1: every invocation of toggle_mode first issues a release for every tracked
pressed key (the whole trace starts with those releases, in tracking order),
clears the tracked set, and only after that may any listener registration for
the new mode appear in the trace: every registration effect sits at an index at
or beyond the count of released keys. Holds for every state — in particular when
`ctrl` is tracked, `key_up(ctrl)` is emitted before any new binding is armed. -/
theorem toggle_mode_releases_before_registrations (config : Config)
    (controller : Controller) (st : HandlerState) (mode_name : String) :
    (∃ rest, (toggle_mode config controller st mode_name).2.1 =
        st.pressed_keys.map Effect.release ++ rest) ∧
    (toggle_mode config controller st mode_name).1.pressed_keys = [] ∧
    (∀ k ∈ st.pressed_keys,
      Effect.release k ∈ (toggle_mode config controller st mode_name).2.1) ∧
    (∀ i, (hi : i < (toggle_mode config controller st mode_name).2.1.length) →
      isListenerRegistration
          ((toggle_mode config controller st mode_name).2.1.get ⟨i, hi⟩) = true →
      st.pressed_keys.length ≤ i) := by
  obtain ⟨⟨rest, hrest⟩, hcleared⟩ :=
    toggle_mode_trace_shape config controller st mode_name
  refine ⟨⟨rest, hrest⟩, hcleared, ?_, ?_⟩
  · intro k hk
    rw [hrest]
    exact List.mem_append_left _ (List.mem_map_of_mem _ hk)
  · intro i hi hreg
    have hlen : st.pressed_keys.length = (st.pressed_keys.map Effect.release).length := by
      simp
    rw [hlen]
    revert hi hreg
    rw [hrest]
    intro hi hreg
    refine releases_then _ _ ?_ i hi hreg
    intro e he
    obtain ⟨k, -, rfl⟩ := List.mem_map.mp he
    rfl

/-- Witness for toggle_mode_releases_before_registrations with `ctrl` held while
switching from "selection" to "default". -/
theorem toggle_mode_releases_before_registrations_witness :
    (∃ rest, (toggle_mode
        ⟨[("default", ⟨"Default", none, none, none⟩),
          ("global", ⟨"Global", none, none, none⟩)]⟩
        ⟨[], []⟩ ⟨["ctrl"], none⟩ "default").2.1 =
      [Effect.release "ctrl"] ++ rest) ∧
    (toggle_mode
        ⟨[("default", ⟨"Default", none, none, none⟩),
          ("global", ⟨"Global", none, none, none⟩)]⟩
        ⟨[], []⟩ ⟨["ctrl"], none⟩ "default").1.pressed_keys = [] := by
  obtain ⟨h1, h2⟩ := toggle_mode_trace_shape
    ⟨[("default", ⟨"Default", none, none, none⟩),
      ("global", ⟨"Global", none, none, none⟩)]⟩
    ⟨[], []⟩ ⟨["ctrl"], none⟩ "default"
  have h3 := toggle_mode_releases_before_registrations
    ⟨[("default", ⟨"Default", none, none, none⟩),
      ("global", ⟨"Global", none, none, none⟩)]⟩
    ⟨[], []⟩ ⟨["ctrl"], none⟩ "default"
  exact ⟨h3.1, h3.2.1⟩

/-- C2: evaluation of toggle_mode at an unknown target mode. The source asserts
`config_mode is not None` right after the lookup, so an unknown mode name makes
toggle_mode raise AssertionError (success flag false): no fallback to the
configured "default" mode happens (the fallback branch sits after the assert
and is unreachable), no listener is registered, and the keys released by step 1
stay released — even though a "default" mode exists in the configuration. -/
theorem toggle_mode_unknown_mode_asserts :
    (toggle_mode
        ⟨[("default", ⟨"Default", none, none, none⟩),
          ("global", ⟨"Global", none, none, none⟩)]⟩
        ⟨[], []⟩ ⟨["ctrl"], none⟩ "selection").2.2 = false ∧
    (toggle_mode
        ⟨[("default", ⟨"Default", none, none, none⟩),
          ("global", ⟨"Global", none, none, none⟩)]⟩
        ⟨[], []⟩ ⟨["ctrl"], none⟩ "selection").2.1 =
      [Effect.release "ctrl",
        Effect.remove_listeners controllerInputEventListenerTag] ∧
    (assocGet
        ([("default", (⟨"Default", none, none, none⟩ : Mode)),
          ("global", ⟨"Global", none, none, none⟩)]) "default").isSome = true :=
  ⟨rfl, rfl, rfl⟩

/-- C8: key_down is idempotent — pressing an already-tracked key changes
nothing and emits nothing, pressing an untracked key appends it and emits
exactly one press; key_up on a tracked key removes it (fully, as the tracked
list never holds duplicates) and emits exactly one release, and is a complete
no-op on an untracked key. -/
theorem execute_action_key_semantics (config : Config) (controller : Controller)
    (st : HandlerState) (k : KeyboardKey) :
    (k ∈ st.pressed_keys →
      execute_action config controller st (.key_down k) = (st, [], true)) ∧
    (k ∉ st.pressed_keys →
      execute_action config controller st (.key_down k) =
        ({ st with pressed_keys := st.pressed_keys ++ [k] },
          [Effect.press k], true)) ∧
    (k ∈ st.pressed_keys →
      execute_action config controller st (.key_up k) =
        ({ st with pressed_keys := st.pressed_keys.erase k },
          [Effect.release k], true) ∧
      (st.pressed_keys.Nodup → k ∉ st.pressed_keys.erase k)) ∧
    (k ∉ st.pressed_keys →
      execute_action config controller st (.key_up k) = (st, [], true)) := by
  refine ⟨fun h => ?_, fun h => ?_, fun h => ⟨?_, fun hnd => hnd.not_mem_erase⟩,
    fun h => ?_⟩ <;>
    simp [execute_action, h]

/-- Witness for execute_action_key_semantics on the singleton tracked list. -/
theorem execute_action_key_semantics_witness :
    execute_action ⟨[]⟩ ⟨[], []⟩ ⟨["a"], none⟩ (.key_down "a") =
      (⟨["a"], none⟩, [], true) ∧
    execute_action ⟨[]⟩ ⟨[], []⟩ ⟨["a"], none⟩ (.key_up "a") =
      (⟨(["a"] : List KeyboardKey).erase "a", none⟩, [Effect.release "a"], true) ∧
    execute_action ⟨[]⟩ ⟨[], []⟩ ⟨["a"], none⟩ (.key_down "b") =
      (⟨["a", "b"], none⟩, [Effect.press "b"], true) ∧
    execute_action ⟨[]⟩ ⟨[], []⟩ ⟨["a"], none⟩ (.key_up "b") =
      (⟨["a"], none⟩, [], true) :=
  ⟨(execute_action_key_semantics ⟨[]⟩ ⟨[], []⟩ ⟨["a"], none⟩ "a").1 (by decide),
   ((execute_action_key_semantics ⟨[]⟩ ⟨[], []⟩ ⟨["a"], none⟩ "a").2.2.1
     (by decide)).1,
   (execute_action_key_semantics ⟨[]⟩ ⟨[], []⟩ ⟨["a"], none⟩ "b").2.1 (by decide),
   (execute_action_key_semantics ⟨[]⟩ ⟨[], []⟩ ⟨["a"], none⟩ "b").2.2.2 (by decide)⟩

end ChordController

namespace ChordController

/-! Motion model (controller_input_handler.py, continuous side).

Python floats are modelled as real numbers; `time.time()` becomes an explicit
`now` argument; the handler's motion-related mutable attributes form
`MotionState`. Python `int(x)` is truncation toward zero (`pyInt`). -/

/-- CursorSettings from config.py (the fields the motion model reads). -/
structure CursorSettings where
  cursor_speed : ℝ
  cursor_boost_speed : ℝ
  cursor_boost_acceleration_delay : ℝ
  cursor_boost_acceleration_time : ℝ
  scroll_speed : ℝ

/-- The motion-related mutable attributes of ControllerInputHandler. -/
structure MotionState where
  boost : Bool := false
  boost_start_time : ℝ := 0
  target_scroll_x : ℝ := 0
  target_scroll_y : ℝ := 0
  target_distance_x : ℝ := 0
  target_distance_y : ℝ := 0

/-- Python `int()` on a float: truncation toward zero. -/
noncomputable def pyInt (x : ℝ) : ℤ :=
  if 0 ≤ x then ⌊x⌋ else ⌈x⌉

/-- ControllerInputHandler.get_cursor_speed. The source computes
`speed = (x² + y²) ** 0.5`, clamps it to 1 above 0.95 while driving the boost
state machine, and then dispatches on `is_boosting` / `speed < 0.05` / else;
here the source's trailing if/elif/else is substituted into each boost-state
branch with the clamped value of `speed` (1 inside the `> 0.95` branch, the
magnitude itself otherwise), which is the value the source's variable holds
at that point. -/
noncomputable def get_cursor_speed (cs : CursorSettings) (st : MotionState)
    (x_value y_value now : ℝ) : MotionState × ℝ :=
  let speed0 := Real.sqrt (x_value ^ 2 + y_value ^ 2)
  if speed0 > 0.95 then
    if st.boost = false then
      ({ st with boost := true, boost_start_time := now },
        if (1 : ℝ) < 0.05 then 0 else 1.5 * (2.4 : ℝ) ^ (4.3 * ((1 : ℝ) - 1.1)))
    else if now - st.boost_start_time ≥ cs.cursor_boost_acceleration_delay then
      let boost_time := now - st.boost_start_time - cs.cursor_boost_acceleration_delay
      let boost_factor := boost_time / cs.cursor_boost_acceleration_time
      let boost_factor := if boost_factor > 1 then (1 : ℝ) else boost_factor
      let boost_factor := if boost_factor < 0 then (0 : ℝ) else boost_factor
      (st, 1 + boost_factor * cs.cursor_boost_speed)
    else (st, if (1 : ℝ) < 0.05 then 0 else 1.5 * (2.4 : ℝ) ^ (4.3 * ((1 : ℝ) - 1.1)))
  else
    ({ st with boost := false },
      if speed0 < 0.05 then 0 else 1.5 * (2.4 : ℝ) ^ (4.3 * (speed0 - 1.1)))

/-- The non-boosting speed curve as a function of the stick magnitude r: the
value get_cursor_speed computes whenever `is_boosting` is false (above 0.95
the magnitude is clamped to 1 before the exponential is applied). -/
noncomputable def speedNoBoost (r : ℝ) : ℝ :=
  let speed := if r > 0.95 then (1 : ℝ) else r
  if speed < 0.05 then 0 else 1.5 * (2.4 : ℝ) ^ (4.3 * (speed - 1.1))

/-- The accumulate-and-truncate step shared by both cursor axes: reset the
accumulator when the sign test `(v > 0) != (acc > 0)` fires, add the per-frame
distance `v * speed_setting * delta_time`, and emit the integer part once the
magnitude reaches 1, keeping the remainder. Returns (new accumulator, emitted). -/
noncomputable def axisStep (speed_setting delta_time acc v : ℝ) : ℝ × ℤ :=
  let acc1 := if ¬ ((v > 0) ↔ (acc > 0)) then 0 else acc
  let acc2 := acc1 + v * speed_setting * delta_time
  if |acc2| ≥ 1 then (acc2 - (pyInt acc2 : ℝ), pyInt acc2) else (acc2, 0)

/-- ControllerInputHandler.move_cursor: scale the stick by the speed curve,
accumulate per-axis distances, and emit the integer parts to mouse.move. -/
noncomputable def move_cursor (cs : CursorSettings) (st : MotionState)
    (x_value y_value delta_time now : ℝ) : MotionState × ℤ × ℤ :=
  let r := get_cursor_speed cs st x_value y_value now
  let st1 := r.1
  let speed := r.2
  let xv := x_value * speed
  let yv := y_value * speed
  let distance_x := xv * cs.cursor_speed * delta_time
  let distance_y := yv * cs.cursor_speed * delta_time
  let tdx0 := if ¬ ((xv > 0) ↔ (st1.target_distance_x > 0)) then 0
    else st1.target_distance_x
  let tdy0 := if ¬ ((yv > 0) ↔ (st1.target_distance_y > 0)) then 0
    else st1.target_distance_y
  let tdx1 := tdx0 + distance_x
  let tdy1 := tdy0 + distance_y
  let px := if |tdx1| ≥ 1 then (tdx1 - (pyInt tdx1 : ℝ), pyInt tdx1) else (tdx1, 0)
  let py := if |tdy1| ≥ 1 then (tdy1 - (pyInt tdy1 : ℝ), pyInt tdy1) else (tdy1, 0)
  ({ st1 with target_distance_x := px.1, target_distance_y := py.1 }, px.2, py.2)

/-- ControllerInputHandler.scroll. Parameters in source order
(y_value, x_value, delta_time); `delta_time` is accepted but never read, and
no speed curve is applied: each axis accumulates `value * scroll_speed`.
`mouse.scroll(ax, -ay)` is only issued when one amount is nonzero. -/
noncomputable def scroll (cs : CursorSettings) (st : MotionState)
    (y_value x_value delta_time : ℝ) : MotionState × Option (ℤ × ℤ) :=
  let tsy0 := if ¬ ((y_value > 0) ↔ (st.target_scroll_y > 0)) then 0
    else st.target_scroll_y
  let tsy1 := tsy0 + y_value * cs.scroll_speed
  let tsx0 := if ¬ ((x_value > 0) ↔ (st.target_scroll_x > 0)) then 0
    else st.target_scroll_x
  let tsx1 := tsx0 + x_value * cs.scroll_speed
  let py := if |tsy1| ≥ 1 then (tsy1 - (pyInt tsy1 : ℝ), pyInt tsy1) else (tsy1, 0)
  let px := if |tsx1| ≥ 1 then (tsx1 - (pyInt tsx1 : ℝ), pyInt tsx1) else (tsx1, 0)
  ({ st with target_scroll_x := px.1, target_scroll_y := py.1 },
   if px.2 ≠ 0 ∨ py.2 ≠ 0 then some (px.2, -py.2) else none)

/-- What the spec's words describe for the scroll path: the move_cursor body
with `scroll_speed` in place of `cursor_speed`, the vertical emission sign
inverted relative to stick Y. This definition follows the specification text,
not the source, and exists to be compared with `scroll`. -/
noncomputable def scrollSpec (cs : CursorSettings) (st : MotionState)
    (y_value x_value delta_time now : ℝ) : MotionState × ℤ × ℤ :=
  let r := get_cursor_speed cs st x_value y_value now
  let st1 := r.1
  let speed := r.2
  let xv := x_value * speed
  let yv := y_value * speed
  let distance_x := xv * cs.scroll_speed * delta_time
  let distance_y := yv * cs.scroll_speed * delta_time
  let tsx0 := if ¬ ((xv > 0) ↔ (st1.target_scroll_x > 0)) then 0
    else st1.target_scroll_x
  let tsy0 := if ¬ ((yv > 0) ↔ (st1.target_scroll_y > 0)) then 0
    else st1.target_scroll_y
  let tsx1 := tsx0 + distance_x
  let tsy1 := tsy0 + distance_y
  let px := if |tsx1| ≥ 1 then (tsx1 - (pyInt tsx1 : ℝ), pyInt tsx1) else (tsx1, 0)
  let py := if |tsy1| ≥ 1 then (tsy1 - (pyInt tsy1 : ℝ), pyInt tsy1) else (tsy1, 0)
  ({ st1 with target_scroll_x := px.1, target_scroll_y := py.1 }, px.2, -py.2)

/-- Accumulated run of the per-axis step over a list of (stick value, dt)
frames; returns the final accumulator and the total emitted amount. -/
noncomputable def axisRun (speed_setting : ℝ) : List (ℝ × ℝ) → ℝ → ℝ × ℤ
  | [], acc => (acc, 0)
  | vd :: rest, acc =>
    let s := axisStep speed_setting vd.2 acc vd.1
    let r := axisRun speed_setting rest s.1
    (r.1, s.2 + r.2)

/-- No lossy sign-flip reset happens along the run: at every frame either the
code's sign test agrees (no reset) or the accumulator is exactly zero (the
reset clears nothing). -/
noncomputable def NoFlipRun (speed_setting : ℝ) : List (ℝ × ℝ) → ℝ → Prop
  | [], _ => True
  | vd :: rest, acc =>
    (((vd.1 > 0) ↔ (acc > 0)) ∨ acc = 0) ∧
      NoFlipRun speed_setting rest (axisStep speed_setting vd.2 acc vd.1).1

/-- The exact analog distance of a run of frames. -/
noncomputable def totalDist (speed_setting : ℝ) (frames : List (ℝ × ℝ)) : ℝ :=
  (frames.map (fun vd => vd.1 * speed_setting * vd.2)).sum

end ChordController

namespace ChordController

theorem pyInt_eq_zero {x : ℝ} (h : |x| < 1) : pyInt x = 0 := by
  obtain ⟨h1, h2⟩ := abs_lt.mp h
  unfold pyInt
  by_cases hx : 0 ≤ x
  · rw [if_pos hx]
    exact Int.floor_eq_zero_iff.mpr ⟨hx, h2⟩
  · rw [if_neg hx]
    push_neg at hx
    exact Int.ceil_eq_zero_iff.mpr ⟨h1, le_of_lt hx⟩

theorem abs_sub_pyInt_lt_one (x : ℝ) : |x - (pyInt x : ℝ)| < 1 := by
  unfold pyInt
  by_cases hx : 0 ≤ x
  · rw [if_pos hx, abs_lt]
    constructor
    · have := Int.floor_le x
      linarith
    · have := Int.lt_floor_add_one x
      linarith
  · rw [if_neg hx, abs_lt]
    constructor
    · have := Int.ceil_lt_add_one x
      linarith
    · have := Int.le_ceil x
      push_neg at hx
      linarith

theorem axisStep_reset (s dt acc v : ℝ) (h : ¬ ((v > 0) ↔ (acc > 0))) :
    axisStep s dt acc v = axisStep s dt 0 v := by
  simp only [axisStep, if_pos h, ite_self]

theorem axisStep_emit (s dt acc v : ℝ) :
    (axisStep s dt acc v).2 =
      pyInt ((if ¬ ((v > 0) ↔ (acc > 0)) then 0 else acc) + v * s * dt) := by
  unfold axisStep
  by_cases habs : |(if ¬ ((v > 0) ↔ (acc > 0)) then 0 else acc) + v * s * dt| ≥ 1
  · rw [if_pos habs]
  · rw [if_neg habs]
    exact (pyInt_eq_zero (not_le.mp habs)).symm

theorem axisStep_abs_lt_one (s dt acc v : ℝ) : |(axisStep s dt acc v).1| < 1 := by
  unfold axisStep
  by_cases habs : |(if ¬ ((v > 0) ↔ (acc > 0)) then 0 else acc) + v * s * dt| ≥ 1
  · rw [if_pos habs]
    exact abs_sub_pyInt_lt_one _
  · rw [if_neg habs]
    exact not_le.mp habs

theorem axisStep_balance (s dt acc v : ℝ)
    (h : ((v > 0) ↔ (acc > 0)) ∨ acc = 0) :
    (axisStep s dt acc v).1 =
      acc + v * s * dt - ((axisStep s dt acc v).2 : ℝ) := by
  have hacc1 : (if ¬ ((v > 0) ↔ (acc > 0)) then (0 : ℝ) else acc) = acc := by
    rcases h with h | h
    · rw [if_neg (not_not_intro h)]
    · subst h
      exact ite_self 0
  unfold axisStep
  rw [hacc1]
  by_cases habs : |acc + v * s * dt| ≥ 1
  · rw [if_pos habs]
  · rw [if_neg habs]
    simp

theorem totalDist_cons (s : ℝ) (vd : ℝ × ℝ) (rest : List (ℝ × ℝ)) :
    totalDist s (vd :: rest) = vd.1 * s * vd.2 + totalDist s rest := by
  simp [totalDist]

theorem axisRun_balance (s : ℝ) (frames : List (ℝ × ℝ)) :
    ∀ acc, NoFlipRun s frames acc →
      (axisRun s frames acc).1 =
        acc + totalDist s frames - ((axisRun s frames acc).2 : ℝ) := by
  induction frames with
  | nil =>
    intro acc _
    simp [axisRun, totalDist]
  | cons vd rest ih =>
    intro acc hnf
    obtain ⟨hstep, hrest⟩ := hnf
    have hbal := axisStep_balance s vd.2 acc vd.1 hstep
    have hih := ih (axisStep s vd.2 acc vd.1).1 hrest
    simp only [axisRun]
    rw [hih, hbal, totalDist_cons]
    push_cast
    ring

theorem axisRun_final_abs_lt_one (s : ℝ) (frames : List (ℝ × ℝ)) :
    ∀ acc, |acc| < 1 → |(axisRun s frames acc).1| < 1 := by
  induction frames with
  | nil =>
    intro acc h
    simpa [axisRun] using h
  | cons vd rest ih =>
    intro acc _
    simp only [axisRun]
    exact ih _ (axisStep_abs_lt_one s vd.2 acc vd.1)

/-- C7: the cursor axes run the shared accumulate-and-truncate step (first
conjunct decomposes move_cursor into one axisStep per axis on the stick value
scaled by the speed curve); a sign flip resets the accumulator before adding;
the emitted amount is always the truncated integer part of the post-add
accumulator; the remaining accumulator always has magnitude below 1; and over
any run of frames from rest whose resets never discard a nonzero remainder,
the emitted total differs from the exact analog distance by less than 1. -/
theorem move_cursor_accumulator_properties :
    (∀ cs st x_value y_value delta_time now,
      move_cursor cs st x_value y_value delta_time now =
        (let r := get_cursor_speed cs st x_value y_value now
         let sx := axisStep cs.cursor_speed delta_time r.1.target_distance_x
           (x_value * r.2)
         let sy := axisStep cs.cursor_speed delta_time r.1.target_distance_y
           (y_value * r.2)
         ({ r.1 with target_distance_x := sx.1, target_distance_y := sy.1 },
           sx.2, sy.2))) ∧
    (∀ s dt acc v, ¬ ((v > 0) ↔ (acc > 0)) →
      axisStep s dt acc v = axisStep s dt 0 v) ∧
    (∀ s dt acc v, (axisStep s dt acc v).2 =
      pyInt ((if ¬ ((v > 0) ↔ (acc > 0)) then 0 else acc) + v * s * dt)) ∧
    (∀ s dt acc v, |(axisStep s dt acc v).1| < 1) ∧
    (∀ s frames, NoFlipRun s frames 0 →
      |totalDist s frames - ((axisRun s frames 0).2 : ℝ)| < 1) :=
  ⟨fun _ _ _ _ _ _ => rfl,
   axisStep_reset,
   axisStep_emit,
   axisStep_abs_lt_one,
   fun s frames hnf => by
     have hbal := axisRun_balance s frames 0 hnf
     have habs := axisRun_final_abs_lt_one s frames 0 (by norm_num)
     rw [hbal] at habs
     calc |totalDist s frames - ((axisRun s frames 0).2 : ℝ)|
         = |0 + totalDist s frames - ((axisRun s frames 0).2 : ℝ)| := by ring_nf
       _ < 1 := habs⟩

/-- Witness for move_cursor_accumulator_properties: one frame of value 1 at
speed 1/2 from rest emits 0 and leaves remainder 1/2, within 1 of the truth. -/
theorem move_cursor_accumulator_properties_witness :
    |totalDist (1 / 2) [((1 : ℝ), (1 : ℝ))] -
      ((axisRun (1 / 2) [((1 : ℝ), (1 : ℝ))] 0).2 : ℝ)| < 1 :=
  move_cursor_accumulator_properties.2.2.2.2 (1 / 2) [(1, 1)] ⟨Or.inr rfl, trivial⟩

end ChordController

namespace ChordController

/-! Claim C6: shape of the cursor speed curve. -/

theorem speedNoBoost_dead_zone {r : ℝ} (h : r < 0.05) : speedNoBoost r = 0 := by
  have h95 : ¬ r > 0.95 := by intro hc; norm_num at h hc; linarith
  simp only [speedNoBoost]
  rw [if_neg h95, if_pos h]

theorem speedNoBoost_midrange {r : ℝ} (h1 : 0.05 ≤ r) (h2 : r ≤ 0.95) :
    speedNoBoost r = 1.5 * (2.4 : ℝ) ^ (4.3 * (r - 1.1)) := by
  have h95 : ¬ r > 0.95 := not_lt.mpr h2
  have h05 : ¬ r < 0.05 := not_lt.mpr h1
  simp only [speedNoBoost]
  rw [if_neg h95, if_neg h05]

theorem speedNoBoost_clamp {r : ℝ} (h : r > 0.95) :
    speedNoBoost r = 1.5 * (2.4 : ℝ) ^ (4.3 * ((1 : ℝ) - 1.1)) := by
  simp only [speedNoBoost]
  rw [if_pos h, if_neg (by norm_num : ¬ (1 : ℝ) < 0.05)]

theorem speedNoBoost_boundary_pos : 0 < speedNoBoost 0.05 := by
  rw [speedNoBoost_midrange (le_refl _) (by norm_num)]
  have := Real.rpow_pos_of_pos (by norm_num : (0:ℝ) < 2.4) (4.3 * ((0.05 : ℝ) - 1.1))
  linarith

theorem speedNoBoost_discont_at_dead_zone : ¬ ContinuousAt speedNoBoost 0.05 := by
  intro h
  have htend : Filter.Tendsto speedNoBoost (nhdsWithin 0.05 (Set.Iio 0.05))
      (nhds (speedNoBoost 0.05)) := h.tendsto.mono_left nhdsWithin_le_nhds
  have hev : (fun _ : ℝ => (0 : ℝ)) =ᶠ[nhdsWithin 0.05 (Set.Iio 0.05)]
      speedNoBoost := by
    filter_upwards [self_mem_nhdsWithin] with x hx
    exact (speedNoBoost_dead_zone hx).symm
  have hzero : Filter.Tendsto speedNoBoost (nhdsWithin 0.05 (Set.Iio 0.05))
      (nhds 0) := Filter.Tendsto.congr' hev tendsto_const_nhds
  have huniq : (0 : ℝ) = speedNoBoost 0.05 := tendsto_nhds_unique hzero htend
  exact absurd huniq.symm (ne_of_gt speedNoBoost_boundary_pos)

theorem speedNoBoost_discont_at_clamp : ¬ ContinuousAt speedNoBoost 0.95 := by
  intro h
  have htend : Filter.Tendsto speedNoBoost (nhdsWithin 0.95 (Set.Ioi 0.95))
      (nhds (speedNoBoost 0.95)) := h.tendsto.mono_left nhdsWithin_le_nhds
  have hev : (fun _ : ℝ => 1.5 * (2.4 : ℝ) ^ (4.3 * ((1 : ℝ) - 1.1)))
      =ᶠ[nhdsWithin 0.95 (Set.Ioi 0.95)] speedNoBoost := by
    filter_upwards [self_mem_nhdsWithin] with x hx
    exact (speedNoBoost_clamp hx).symm
  have hconst : Filter.Tendsto speedNoBoost (nhdsWithin 0.95 (Set.Ioi 0.95))
      (nhds (1.5 * (2.4 : ℝ) ^ (4.3 * ((1 : ℝ) - 1.1)))) :=
    Filter.Tendsto.congr' hev tendsto_const_nhds
  have huniq := tendsto_nhds_unique hconst htend
  rw [speedNoBoost_midrange (by norm_num) (le_refl _)] at huniq
  have heq : (2.4 : ℝ) ^ (4.3 * ((1 : ℝ) - 1.1)) =
      (2.4 : ℝ) ^ (4.3 * ((0.95 : ℝ) - 1.1)) :=
    mul_left_cancel₀ (by norm_num : (1.5 : ℝ) ≠ 0) huniq
  have hlt : (2.4 : ℝ) ^ (4.3 * ((0.95 : ℝ) - 1.1)) <
      (2.4 : ℝ) ^ (4.3 * ((1 : ℝ) - 1.1)) :=
    (Real.rpow_lt_rpow_left_iff (by norm_num)).mpr (by norm_num)
  linarith

theorem get_cursor_speed_zero (cs : CursorSettings) (st : MotionState) (now : ℝ) :
    (get_cursor_speed cs st 0 0 now).2 = 0 := by
  have hsqrt : Real.sqrt ((0 : ℝ) ^ 2 + 0 ^ 2) = 0 := by
    norm_num
  simp only [get_cursor_speed, hsqrt]
  rw [if_neg (by norm_num : ¬ (0 : ℝ) > 0.95)]
  simp only
  rw [if_pos (by norm_num : (0 : ℝ) < 0.05)]

theorem get_cursor_speed_not_boosting (cs : CursorSettings) (st : MotionState)
    (x_value y_value now : ℝ)
    (h : st.boost = false ∨
      now - st.boost_start_time < cs.cursor_boost_acceleration_delay) :
    (get_cursor_speed cs st x_value y_value now).2 =
      speedNoBoost (Real.sqrt (x_value ^ 2 + y_value ^ 2)) := by
  simp only [get_cursor_speed, speedNoBoost]
  by_cases h95 : Real.sqrt (x_value ^ 2 + y_value ^ 2) > 0.95
  · rw [if_pos h95, if_pos h95]
    by_cases hb : st.boost = false
    · rw [if_pos hb]
    · have hlt : now - st.boost_start_time < cs.cursor_boost_acceleration_delay := by
        rcases h with h | h
        · exact absurd h hb
        · exact h
      rw [if_neg hb, if_neg (not_le.mpr hlt)]
  · rw [if_neg h95, if_neg h95]

/-- C6 counterexample: the code's speed curve (with boost inactive) is NOT
continuous at the claimed boundaries — it jumps from 0 to a positive value at
r = 0.05, and at r = 0.95 it jumps because above the threshold the exponential
is evaluated at the clamped magnitude 1 rather than at r. -/
theorem cursor_speed_curve_not_continuous :
    ¬ (ContinuousAt speedNoBoost 0.05 ∧ ContinuousAt speedNoBoost 0.95) :=
  fun h => speedNoBoost_discont_at_dead_zone h.1

/-- C6 (amended): speed(0,0) = 0; whenever boost is inactive the speed is the
pure curve of the magnitude r = sqrt(x² + y²); the curve is 0 below 0.05, the
exponential ease 1.5·2.4^(4.3(r − 1.1)) on [0.05, 0.95], and for r > 0.95 the
effective magnitude is clamped to 1 (the exponential evaluated at 1) — but the
curve is discontinuous at BOTH boundaries r = 0.05 and r = 0.95, independent of
the boost ramp. -/
theorem cursor_speed_curve_shape :
    (∀ cs st now, (get_cursor_speed cs st 0 0 now).2 = 0) ∧
    (∀ cs st x_value y_value now,
      st.boost = false ∨
        now - st.boost_start_time < cs.cursor_boost_acceleration_delay →
      (get_cursor_speed cs st x_value y_value now).2 =
        speedNoBoost (Real.sqrt (x_value ^ 2 + y_value ^ 2))) ∧
    (∀ r, r < 0.05 → speedNoBoost r = 0) ∧
    (∀ r, 0.05 ≤ r → r ≤ 0.95 →
      speedNoBoost r = 1.5 * (2.4 : ℝ) ^ (4.3 * (r - 1.1))) ∧
    (∀ r, r > 0.95 →
      speedNoBoost r = 1.5 * (2.4 : ℝ) ^ (4.3 * ((1 : ℝ) - 1.1))) ∧
    ¬ ContinuousAt speedNoBoost 0.05 ∧
    ¬ ContinuousAt speedNoBoost 0.95 :=
  ⟨get_cursor_speed_zero,
   get_cursor_speed_not_boosting,
   fun _ h => speedNoBoost_dead_zone h,
   fun _ h1 h2 => speedNoBoost_midrange h1 h2,
   fun _ h => speedNoBoost_clamp h,
   speedNoBoost_discont_at_dead_zone,
   speedNoBoost_discont_at_clamp⟩

/-- Witness for cursor_speed_curve_shape at concrete magnitudes. -/
theorem cursor_speed_curve_shape_witness :
    speedNoBoost 0.01 = 0 ∧
    speedNoBoost 0.5 = 1.5 * (2.4 : ℝ) ^ (4.3 * ((0.5 : ℝ) - 1.1)) ∧
    speedNoBoost 2 = 1.5 * (2.4 : ℝ) ^ (4.3 * ((1 : ℝ) - 1.1)) ∧
    (get_cursor_speed ⟨500, 10, 0.1, 0.5, 0.5⟩ ⟨false, 0, 0, 0, 0, 0⟩ 0.5 0 0).2 =
      speedNoBoost (Real.sqrt ((0.5 : ℝ) ^ 2 + (0 : ℝ) ^ 2)) :=
  ⟨cursor_speed_curve_shape.2.2.1 0.01 (by norm_num),
   cursor_speed_curve_shape.2.2.2.1 0.5 (by norm_num) (by norm_num),
   cursor_speed_curve_shape.2.2.2.2.1 2 (by norm_num),
   cursor_speed_curve_shape.2.1 ⟨500, 10, 0.1, 0.5, 0.5⟩ ⟨false, 0, 0, 0, 0, 0⟩
     0.5 0 0 (Or.inl rfl)⟩

end ChordController

namespace ChordController

/-! Claim C4: the scroll path versus the cursor-movement pattern. -/

/-- C4 counterexample: with scroll_speed = 100 and the stick at (x, y) =
(1/25, 0) — inside the speed curve's dead zone, where the curve is 0 — the
source's scroll path emits a scroll of 4 horizontal units in one call
(it accumulates `value * scroll_speed` with no speed-curve factor and no dt
factor), while the pattern the claim describes (move_cursor's computation with
scroll_speed, modelled by scrollSpec) emits nothing. -/
theorem scroll_not_curve_dt_pattern :
    (scroll ⟨500, 10, 0.1, 0.5, 100⟩ ⟨false, 0, 0, 0, 0, 0⟩ 0 (1 / 25) 1).2 =
      some (4, 0) ∧
    (scrollSpec ⟨500, 10, 0.1, 0.5, 100⟩ ⟨false, 0, 0, 0, 0, 0⟩ 0 (1 / 25) 1 0).2 =
      (0, 0) := by
  constructor
  · norm_num [scroll, pyInt]
  · have hs : Real.sqrt ((1 / 25 : ℝ) ^ 2 + (0 : ℝ) ^ 2) = 1 / 25 := by
      rw [show ((1 / 25 : ℝ) ^ 2 + (0 : ℝ) ^ 2) = (1 / 25 : ℝ) ^ 2 by ring]
      exact Real.sqrt_sq (by norm_num)
    have hnb := get_cursor_speed_not_boosting ⟨500, 10, 0.1, 0.5, 100⟩
      ⟨false, 0, 0, 0, 0, 0⟩ (1 / 25) 0 0 (Or.inl rfl)
    rw [hs] at hnb
    have hspeed : (get_cursor_speed ⟨500, 10, 0.1, 0.5, 100⟩
        ⟨false, 0, 0, 0, 0, 0⟩ (1 / 25) 0 0).2 = 0 := by
      rw [hnb]
      exact speedNoBoost_dead_zone (by norm_num)
    have hst : (get_cursor_speed ⟨500, 10, 0.1, 0.5, 100⟩
        ⟨false, 0, 0, 0, 0, 0⟩ (1 / 25) 0 0).1 = ⟨false, 0, 0, 0, 0, 0⟩ := by
      simp only [get_cursor_speed]
      rw [if_neg]
      rw [hs]
      norm_num
    simp only [scrollSpec, hspeed, hst]
    norm_num [pyInt]

/-- C4 (amended): the scroll path ignores delta_time entirely and applies no
speed curve: each axis accumulates `stick value × scroll_speed` with the same
reset-on-sign-flip and truncate-emit step as the cursor axes (axisStep with
dt = 1 and the raw stick value), the vertical emission is sign-inverted
relative to stick Y, and the scroll call is only issued when one of the two
truncated amounts is nonzero. -/
theorem scroll_pattern :
    (∀ cs st y_value x_value delta_time delta_time',
      scroll cs st y_value x_value delta_time =
        scroll cs st y_value x_value delta_time') ∧
    (∀ cs st y_value x_value delta_time,
      scroll cs st y_value x_value delta_time =
        (let sy := axisStep cs.scroll_speed 1 st.target_scroll_y y_value
         let sx := axisStep cs.scroll_speed 1 st.target_scroll_x x_value
         ({ st with target_scroll_x := sx.1, target_scroll_y := sy.1 },
          if sx.2 ≠ 0 ∨ sy.2 ≠ 0 then some (sx.2, -sy.2) else none))) :=
  ⟨fun _ _ _ _ _ _ => rfl,
   fun cs st y_value x_value delta_time => by
     simp only [scroll, axisStep, mul_one]⟩

end ChordController
